import Mathlib

/-!
Verification of the `semver` CLI tool (src/main.rs) against its
natural-language specification.

The program is a single linear pipeline: locate a current version string in
`composer.json`, `package.json` or `VERSION` (in that priority order), parse it
as a strict semantic version, bump one component, and rewrite every present
version-bearing file with the new version string.

The embedding below models the filesystem state seen by the program (the three
files it touches), JSON documents as ordered key/value lists (mirroring the
`IndexMap`-backed `OrderedJson`), and the semver-crate parsing/printing used by
`Version::parse` / `Version::to_string`.
-/

namespace Semver

/-- A JSON value; objects keep their fields as an ordered list of pairs,
mirroring `IndexMap<String, Value>` (insertion order preserved, keys unique
after parsing). -/
inductive Json where
  | null : Json
  | bool (b : Bool) : Json
  | num (n : Int) : Json
  | str (s : String) : Json
  | arr (xs : List Json) : Json
  | obj (fields : List (String × Json)) : Json

/-- The state of one of the JSON manifest files as observed by the program:
missing, present but unreadable (`fs::read_to_string` fails), present but not
syntactically valid JSON (`serde_json::from_str` fails), or present with a
parsed JSON document. -/
inductive FileState where
  | absent : FileState
  | unreadable : FileState
  | unparseable : FileState
  | json (j : Json) : FileState

/-- The state of the plain `VERSION` file: missing, present but unreadable, or
present with text content. -/
inductive TextFile where
  | absent : TextFile
  | unreadable : TextFile
  | content (s : String) : TextFile

/-- The files in the working directory that the program reads and writes. -/
structure Fs where
  composer : FileState
  package : FileState
  versionFile : TextFile

/-- First-occurrence key lookup in an ordered field list; on the unique-keyed
maps produced by JSON parsing this coincides with `IndexMap::get`. -/
def lookupKey : List (String × Json) → String → Option Json
  | [], _ => none
  | (k, v) :: rest, key => if k = key then some v else lookupKey rest key

/-- Model of Rust's `str::trim`: strip whitespace from both ends. -/
def rustTrim (s : String) : String :=
  String.mk (((s.data.dropWhile Char.isWhitespace).reverse.dropWhile
    Char.isWhitespace).reverse)

/-- The version string that `serde_json::from_str::<ComposerJson>` (equally
`PackageJson`) extracts from a manifest file: deserialization succeeds exactly
when the file exists, reads, parses as a JSON object, and has a top-level
`version` field holding a string (the `#[serde(flatten)] other` field absorbs
everything else). -/
def extractVersionField (file : FileState) : Option String :=
  match file with
  | .json (.obj fields) =>
    match lookupKey fields "version" with
    | some (.str s) => some s
    | _ => none
  | _ => none

/-- Model of `get_current_version` (src/main.rs:132-156): try `composer.json`,
then `package.json`, then the trimmed content of `VERSION`; each block falls
through to the next on absence, read failure or deserialization failure. -/
def get_current_version (fs : Fs) : Option String :=
  match extractVersionField fs.composer with
  | some v => some v
  | none =>
    match extractVersionField fs.package with
    | some v => some v
    | none =>
      match fs.versionFile with
      | .content s => some (rustTrim s)
      | _ => none

/-- `semver::Version`: numeric components are `u64` in Rust (values below
`2 ^ 64`, enforced by the parser); `pre` and `build` are identifier strings
with `""` standing for `Prerelease::EMPTY` / `BuildMetadata::EMPTY`. -/
structure Version where
  major : Nat
  minor : Nat
  patch : Nat
  pre : String
  build : String
  deriving DecidableEq

/-- ASCII digit test used by the semver grammar. -/
def isAsciiDigit (c : Char) : Bool := '0' ≤ c && c ≤ '9'

/-- Characters allowed in pre-release/build identifiers: ASCII alphanumerics
and hyphen. -/
def isIdentChar (c : Char) : Bool := c.isAlphanum || c == '-'

/-- Decimal value of a digit string. -/
def digitsToNat (ds : List Char) : Nat :=
  ds.foldl (fun a c => a * 10 + (c.toNat - 48)) 0

/-- Parse one numeric identifier (major/minor/patch): a non-empty run of ASCII
digits, no leading zero, value fitting in a `u64` (overflow is a parse error in
the semver crate). -/
def parseNumericIdent (cs : List Char) : Option (Nat × List Char) :=
  let ds := cs.takeWhile isAsciiDigit
  let rest := cs.dropWhile isAsciiDigit
  match ds with
  | [] => none
  | d :: tail =>
    if d = '0' ∧ tail ≠ [] then none
    else
      let n := digitsToNat ds
      if n < 2 ^ 64 then some (n, rest) else none

/-- Consume one expected character. -/
def expectChar (c : Char) (cs : List Char) : Option (List Char) :=
  match cs with
  | [] => none
  | c2 :: rest => if c2 = c then some rest else none

/-- Split a character list on `'.'` separators (empty segments preserved, so
empty or dangling identifiers are detected by validation). -/
def splitDots : List Char → List (List Char)
  | [] => [[]]
  | c :: rest =>
    if c = '.' then [] :: splitDots rest
    else
      match splitDots rest with
      | g :: gs => (c :: g) :: gs
      | [] => [[c]]

/-- One pre-release/build identifier: non-empty, alphanumeric/hyphen only;
a purely numeric pre-release identifier may not have a leading zero (build
identifiers may, hence the flag). -/
def validIdentifier (allowLeadingZero : Bool) (cs : List Char) : Bool :=
  match cs with
  | [] => false
  | d :: tail =>
    (d :: tail).all isIdentChar &&
      (allowLeadingZero ||
        !((d :: tail).all isAsciiDigit && d == '0' && !tail.isEmpty))

/-- Parse a dot-separated identifier sequence (the pre-release part after `-`
or the build part after `+`). -/
def parseIdentSeq (allowLeadingZero : Bool) (cs : List Char) :
    Option (String × List Char) :=
  let tok := cs.takeWhile (fun c => isIdentChar c || c == '.')
  let rest := cs.dropWhile (fun c => isIdentChar c || c == '.')
  if (splitDots tok).all (validIdentifier allowLeadingZero) then
    some (String.mk tok, rest)
  else none

/-- Model of `semver::Version::parse`: strict
`MAJOR.MINOR.PATCH[-PRERELEASE][+BUILD]` with nothing left over. -/
def semverParse (s : String) : Option Version := do
  let (major, cs1) ← parseNumericIdent s.data
  let cs2 ← expectChar '.' cs1
  let (minor, cs3) ← parseNumericIdent cs2
  let cs4 ← expectChar '.' cs3
  let (patch, cs5) ← parseNumericIdent cs4
  match cs5 with
  | [] => some ⟨major, minor, patch, "", ""⟩
  | '-' :: rest => do
    let (pre, cs6) ← parseIdentSeq false rest
    match cs6 with
    | [] => some ⟨major, minor, patch, pre, ""⟩
    | '+' :: rest2 => do
      let (build, cs7) ← parseIdentSeq true rest2
      if cs7.isEmpty then some ⟨major, minor, patch, pre, build⟩ else none
    | _ => none
  | '+' :: rest2 => do
    let (build, cs7) ← parseIdentSeq true rest2
    if cs7.isEmpty then some ⟨major, minor, patch, "", build⟩ else none
  | _ => none

/-- Model of `Version`'s `Display`: canonical rendering with optional
`-pre` / `+build` suffixes. -/
def versionToString (v : Version) : String :=
  toString v.major ++ "." ++ toString v.minor ++ "." ++ toString v.patch ++
    (if v.pre = "" then "" else "-" ++ v.pre) ++
    (if v.build = "" then "" else "+" ++ v.build)

/-- The bump arm of `main` (src/main.rs:102-119): increment the component named
by the bump-type string and zero the lower ones. The incremented field is a
Rust `u64`, so the increment wraps modulo `2 ^ 64` — at `u64::MAX` a release
build wraps the component to 0 (a debug build panics at that same boundary).
Any other string is the `Invalid bump type` fatal arm, modelled as `none`. -/
def applyBump (v : Version) (bump_type : String) : Option Version :=
  match bump_type with
  | "major" =>
    some { v with major := (v.major + 1) % 2 ^ 64, minor := 0, patch := 0 }
  | "minor" => some { v with minor := (v.minor + 1) % 2 ^ 64, patch := 0 }
  | "patch" => some { v with patch := (v.patch + 1) % 2 ^ 64 }
  | _ => none

/-- src/main.rs:121-122: `version.pre = EMPTY; version.build = EMPTY;` runs on
every successful bump path. -/
def clearPreBuild (v : Version) : Version := { v with pre := "", build := "" }

/-- The complete bump operation of `main`: the match on the bump-type string
followed by the unconditional clearing of pre-release and build metadata. -/
def bumpVersion (v : Version) (bump_type : String) : Option Version :=
  (applyBump v bump_type).map clearPreBuild

/-- In-place replacement of the value of the (first, hence with parsed-JSON
unique keys the only) `version` entry, as performed through
`map.get_mut("version")` on the `IndexMap`. -/
def setVersion : List (String × Json) → String → List (String × Json)
  | [], _ => []
  | (k, v) :: rest, nv =>
    if k = "version" then (k, Json.str nv) :: rest
    else (k, v) :: setVersion rest nv

/-- Model of `update_json_version` (src/main.rs:157-185): missing, unreadable
or unparseable files are left alone; `OrderedJson` deserializes only JSON
objects; the file is rewritten only when a top-level `version` entry holds a
string, and then only that entry's value changes. -/
def update_json_version (file : FileState) (new_version : String) : FileState :=
  match file with
  | .absent => .absent
  | .unreadable => .unreadable
  | .unparseable => .unparseable
  | .json j =>
    match j with
    | .obj fields =>
      match lookupKey fields "version" with
      | some (.str _) => .json (.obj (setVersion fields new_version))
      | _ => .json j
    | _ => .json j

/-- Model of `update_version_file` (src/main.rs:195-200): when the file exists
its whole content is replaced by the new version string; otherwise nothing
happens. -/
def update_version_file (file : TextFile) (new_version : String) : TextFile :=
  match file with
  | .absent => .absent
  | .unreadable => .content new_version
  | .content _ => .content new_version

/-- Condition under which `update_json_version` actually writes: the file holds
a JSON object whose top-level `version` entry is a string (the
`if let Some(Value::String(..)) = map.get_mut("version")` test). -/
def hasStringVersion (file : FileState) : Bool :=
  match file with
  | .json (.obj fields) =>
    match lookupKey fields "version" with
    | some (.str _) => true
    | _ => false
  | _ => false

/-- Outcome of one program run (stdout aside): which terminal state `main`
reaches. -/
inductive MainResult where
  | noVersionFound : MainResult
  | invalidVersion : MainResult
  | invalidBumpType (b : String) : MainResult
  | ok (old new_v : String) : MainResult

/-- Process exit code of each outcome: 0 on success, 1 for the two
`exit(1)` diagnostics, 101 for the Rust panic raised by
`.expect("Invalid semantic version")`. -/
def exitCodeOf : MainResult → Nat
  | .ok _ _ => 0
  | .noVersionFound => 1
  | .invalidBumpType _ => 1
  | .invalidVersion => 101

/-- The diagnostic each fatal outcome writes to standard error (for the panic,
the panic payload embedded in the report). -/
def stderrOf : MainResult → String
  | .noVersionFound =>
    "No version found in composer.json, package.json, or VERSION file."
  | .invalidVersion => "Invalid semantic version"
  | .invalidBumpType b => "Invalid bump type: " ++ b
  | .ok _ _ => ""

/-- Model of `main` (src/main.rs:89-130) with the bump type supplied by the
`--bump` flag: locate the current version, parse it, bump, then run all three
updaters with the rendered new version; every fatal exit leaves the filesystem
untouched. -/
def mainRun (fs : Fs) (bump_flag : String) : MainResult × Fs :=
  match get_current_version fs with
  | none => (.noVersionFound, fs)
  | some current_version =>
    match semverParse current_version with
    | none => (.invalidVersion, fs)
    | some version =>
      match bumpVersion version bump_flag with
      | none => (.invalidBumpType bump_flag, fs)
      | some bumped =>
        let new_version := versionToString bumped
        (.ok current_version new_version,
          { composer := update_json_version fs.composer new_version,
            package := update_json_version fs.package new_version,
            versionFile := update_version_file fs.versionFile new_version })

/-- Compare one pre-release identifier: numeric identifiers compare
numerically and are lower than alphanumeric ones, which compare in ASCII
lexicographic order (standard semver precedence, as implemented by the semver
crate's `Ord`). -/
def isNumericIdentStr (s : String) : Bool := !s.isEmpty && s.data.all isAsciiDigit

/-- Strict order on single pre-release identifiers. -/
def identLt (a b : String) : Bool :=
  if isNumericIdentStr a then
    if isNumericIdentStr b then decide (digitsToNat a.data < digitsToNat b.data)
    else true
  else
    if isNumericIdentStr b then false
    else decide (a < b)

/-- Strict lexicographic order on identifier sequences; a strict prefix is
lower. -/
def identListLt : List String → List String → Bool
  | [], [] => false
  | [], _ :: _ => true
  | _ :: _, [] => false
  | a :: as, b :: bs => identLt a b || (a == b && identListLt as bs)

/-- Strict precedence order on pre-release components: any pre-release is
lower than the empty (absent) one; two non-empty ones compare by their
dot-separated identifier lists. -/
def preLt (p q : String) : Bool :=
  if p = "" then false
  else if q = "" then true
  else identListLt (p.splitOn ".") (q.splitOn ".")

/-- Strict semantic-version precedence: major, then minor, then patch, then the
pre-release rule (build metadata does not participate in precedence). -/
def semverLt (a b : Version) : Bool :=
  if a.major ≠ b.major then decide (a.major < b.major)
  else if a.minor ≠ b.minor then decide (a.minor < b.minor)
  else if a.patch ≠ b.patch then decide (a.patch < b.patch)
  else preLt a.pre b.pre

/-- The three bump kinds of the specification, with the flag spelling the CLI
accepts for each. -/
inductive BumpKind where
  | major : BumpKind
  | minor : BumpKind
  | patch : BumpKind

/-- The (case-sensitive) flag string naming each bump kind. -/
def BumpKind.flag : BumpKind → String
  | .major => "major"
  | .minor => "minor"
  | .patch => "patch"

/-- The value the VERSION-file branch of `get_current_version` would return:
the trimmed content when the file exists and reads, `none` otherwise. -/
def readVersionFile : TextFile → Option String
  | .content s => some (rustTrim s)
  | _ => none

theorem setVersion_keys (fields : List (String × Json)) (nv : String) :
    (setVersion fields nv).map Prod.fst = fields.map Prod.fst := by
  induction fields with
  | nil => rfl
  | cons kv rest ih =>
    obtain ⟨k, v⟩ := kv
    by_cases hk : k = "version" <;> simp [setVersion, hk, ih]

theorem setVersion_lookup_ne (fields : List (String × Json)) (nv k : String)
    (hk : k ≠ "version") :
    lookupKey (setVersion fields nv) k = lookupKey fields k := by
  induction fields with
  | nil => rfl
  | cons kv rest ih =>
    obtain ⟨k0, v0⟩ := kv
    by_cases h0 : k0 = "version"
    · subst h0
      simp [setVersion, lookupKey, Ne.symm hk]
    · simp [setVersion, lookupKey, h0, ih]

theorem setVersion_lookup_version (fields : List (String × Json)) (nv : String)
    (h : (lookupKey fields "version").isSome) :
    lookupKey (setVersion fields nv) "version" = some (.str nv) := by
  induction fields with
  | nil => simp [lookupKey] at h
  | cons kv rest ih =>
    obtain ⟨k0, v0⟩ := kv
    by_cases h0 : k0 = "version"
    · simp [setVersion, lookupKey, h0]
    · simp [setVersion, lookupKey, h0] at h ⊢
      exact ih h

theorem setVersion_getElem_ne (fields : List (String × Json)) (nv : String)
    (i : Nat) (kv : String × Json) (hi : fields[i]? = some kv)
    (hk : kv.1 ≠ "version") :
    (setVersion fields nv)[i]? = some kv := by
  induction fields generalizing i with
  | nil => simp at hi
  | cons kv0 rest ih =>
    obtain ⟨k0, v0⟩ := kv0
    by_cases h0 : k0 = "version"
    · subst h0
      cases i with
      | zero =>
        rw [List.getElem?_cons_zero] at hi
        injection hi with h2
        subst h2
        exact absurd rfl hk
      | succ n => simpa [setVersion] using hi
    · cases i with
      | zero => simpa [setVersion, h0] using hi
      | succ n =>
        simp at hi
        simpa [setVersion, h0] using ih n hi

/-- C1 (amended): for every valid semantic version and requested bump kind,
bumping produces: Major — major + 1 modulo `2 ^ 64` (the `u64` increment wraps
to 0 at `u64::MAX`), minor and patch zero; Minor — minor + 1 modulo `2 ^ 64`,
patch zero, major unchanged; Patch — patch + 1 modulo `2 ^ 64`, major and
minor unchanged; and in every case the pre-release and build-metadata
components of the result are absent, whatever the input held. -/
theorem bump_component_semantics (v : Version) :
    bumpVersion v "major" = some ⟨(v.major + 1) % 2 ^ 64, 0, 0, "", ""⟩ ∧
    bumpVersion v "minor" = some ⟨v.major, (v.minor + 1) % 2 ^ 64, 0, "", ""⟩ ∧
    bumpVersion v "patch" =
      some ⟨v.major, v.minor, (v.patch + 1) % 2 ^ 64, "", ""⟩ :=
  ⟨rfl, rfl, rfl⟩

/-- Counterexample to C1 as stated: `18446744073709551615.0.0` (major equal to
`u64::MAX`) is a valid, parseable semantic version, yet a major bump wraps the
`u64` component to 0 instead of producing major incremented by one. -/
theorem bump_component_semantics_counterexample :
    semverParse "18446744073709551615.0.0" =
      some ⟨2 ^ 64 - 1, 0, 0, "", ""⟩ ∧
    bumpVersion ⟨2 ^ 64 - 1, 0, 0, "", ""⟩ "major" =
      some ⟨0, 0, 0, "", ""⟩ ∧
    bumpVersion ⟨2 ^ 64 - 1, 0, 0, "", ""⟩ "major" ≠
      some ⟨(2 ^ 64 - 1) + 1, 0, 0, "", ""⟩ := by
  decide

/-- C7 (amended): for every version and bump kind whose bumped component is
below `u64::MAX` (so the `u64` increment does not wrap), the bump never
decreases a higher-precedence component, zeroes all lower-precedence
components, strips pre-release and build metadata, and (when the input has no
pre-release) the result is strictly greater in semantic-version precedence. -/
theorem bump_monotone_zeroing (v : Version) (k : BumpKind)
    (hnw : (match k with
            | .major => v.major
            | .minor => v.minor
            | .patch => v.patch) + 1 < 2 ^ 64) :
    ∃ v2, bumpVersion v k.flag = some v2 ∧ v2.pre = "" ∧ v2.build = "" ∧
      v.major ≤ v2.major ∧
      (match k with
       | .major => v2.minor = 0 ∧ v2.patch = 0
       | .minor => v2.major = v.major ∧ v2.patch = 0
       | .patch => v2.major = v.major ∧ v2.minor = v.minor) ∧
      (v.pre = "" → semverLt v v2 = true) := by
  cases k with
  | major =>
    have hm : (v.major + 1) % 2 ^ 64 = v.major + 1 := Nat.mod_eq_of_lt hnw
    refine ⟨⟨(v.major + 1) % 2 ^ 64, 0, 0, "", ""⟩, rfl, rfl, rfl, ?_,
      ⟨rfl, rfl⟩, fun _ => ?_⟩
    · show v.major ≤ (v.major + 1) % 2 ^ 64
      rw [hm]
      exact Nat.le_succ _
    · rw [hm]
      simp [semverLt]
  | minor =>
    have hm : (v.minor + 1) % 2 ^ 64 = v.minor + 1 := Nat.mod_eq_of_lt hnw
    refine ⟨⟨v.major, (v.minor + 1) % 2 ^ 64, 0, "", ""⟩, rfl, rfl, rfl,
      le_refl _, ⟨rfl, rfl⟩, fun _ => ?_⟩
    rw [hm]
    simp [semverLt]
  | patch =>
    have hm : (v.patch + 1) % 2 ^ 64 = v.patch + 1 := Nat.mod_eq_of_lt hnw
    refine ⟨⟨v.major, v.minor, (v.patch + 1) % 2 ^ 64, "", ""⟩, rfl, rfl, rfl,
      le_refl _, ⟨rfl, rfl⟩, fun _ => ?_⟩
    rw [hm]
    simp [semverLt]

/-- Counterexample to C7 as stated: at major `u64::MAX` a major bump wraps the
component to 0 — the higher-precedence component decreases, and the result is
strictly lower, not greater, in precedence. -/
theorem bump_monotone_zeroing_counterexample :
    bumpVersion ⟨2 ^ 64 - 1, 0, 0, "", ""⟩ "major" =
      some ⟨0, 0, 0, "", ""⟩ ∧
    semverLt ⟨0, 0, 0, "", ""⟩ ⟨2 ^ 64 - 1, 0, 0, "", ""⟩ = true := by
  decide

/-- Concrete instance of `bump_monotone_zeroing` at version 1.2.3 and a patch
bump, with every hypothesis discharged. -/
theorem bump_monotone_zeroing_witness :
    bumpVersion ⟨1, 2, 3, "", ""⟩ "patch" = some ⟨1, 2, 4, "", ""⟩ ∧
    semverLt ⟨1, 2, 3, "", ""⟩ ⟨1, 2, 4, "", ""⟩ = true := by
  obtain ⟨v2, h1, -, -, -, -, hlt⟩ :=
    bump_monotone_zeroing ⟨1, 2, 3, "", ""⟩ .patch (by decide)
  have h2 : some v2 = some (⟨1, 2, 4, "", ""⟩ : Version) := by
    rw [← h1]
    rfl
  have h3 := Option.some.inj h2
  subst h3
  exact ⟨h1, hlt rfl⟩

/-- C2: the locator honours the fixed priority order composer.json, then
package.json, then the plain VERSION file: whenever the composer manifest
yields a version it is returned; package.json is consulted only when composer
fails; VERSION only when both manifests fail. -/
theorem detection_priority :
    (∀ fs v, extractVersionField fs.composer = some v →
      get_current_version fs = some v) ∧
    (∀ fs v, extractVersionField fs.composer = none →
      extractVersionField fs.package = some v →
      get_current_version fs = some v) ∧
    (∀ fs s, extractVersionField fs.composer = none →
      extractVersionField fs.package = none →
      fs.versionFile = .content s →
      get_current_version fs = some (rustTrim s)) := by
  refine ⟨fun fs v h => ?_, fun fs v h1 h2 => ?_, fun fs s h1 h2 h3 => ?_⟩
  · simp [get_current_version, h]
  · simp [get_current_version, h1, h2]
  · simp [get_current_version, h1, h2, h3]

/-- Concrete instances of `detection_priority`: the three-file scenario of the
test suite reports the composer.json value, the two-file scenario the
package.json value, and the VERSION-only scenario the trimmed file content. -/
theorem detection_priority_witness :
    get_current_version ⟨.json (.obj [("version", Json.str "0.1.0")]),
      .json (.obj [("version", Json.str "9.9.9")]), .content "2.2.2"⟩ =
        some "0.1.0" ∧
    get_current_version ⟨.absent, .json (.obj [("version", Json.str "1.0.5")]),
      .content "3.3.3"⟩ = some "1.0.5" ∧
    get_current_version ⟨.absent, .absent, .content "0.0.9"⟩ = some "0.0.9" := by
  refine ⟨detection_priority.1 _ _ rfl, detection_priority.2.1 _ _ rfl rfl, ?_⟩
  have h := detection_priority.2.2 ⟨.absent, .absent, .content "0.0.9"⟩
    "0.0.9" rfl rfl rfl
  have h2 : rustTrim "0.0.9" = "0.0.9" := by decide
  rw [h2] at h
  exact h

/-- C6: the locator returns `none` exactly when no source yields a version —
composer.json and package.json deserialization both fail and the VERSION file
is missing or unreadable — and any returned string was extracted from one of
the three sources. -/
theorem locator_none_characterization (fs : Fs) :
    (get_current_version fs = none ↔
      extractVersionField fs.composer = none ∧
      extractVersionField fs.package = none ∧
      readVersionFile fs.versionFile = none) ∧
    ∀ s, get_current_version fs = some s →
      extractVersionField fs.composer = some s ∨
      extractVersionField fs.package = some s ∨
      readVersionFile fs.versionFile = some s := by
  constructor
  · cases hc : extractVersionField fs.composer <;>
      cases hp : extractVersionField fs.package <;>
        cases hv : fs.versionFile <;>
          simp [get_current_version, readVersionFile, hc, hp, hv]
  · intro s h
    cases hc : extractVersionField fs.composer <;>
      cases hp : extractVersionField fs.package <;>
        cases hv : fs.versionFile <;>
          simp [get_current_version, readVersionFile, hc, hp, hv] at h ⊢ <;>
            tauto

/-- Concrete instances of `locator_none_characterization`: when all three files
are missing the locator yields `none`, and the version it reports for a
VERSION-only filesystem comes from that file. -/
theorem locator_none_characterization_witness :
    get_current_version ⟨.absent, .absent, .absent⟩ = none ∧
    (extractVersionField FileState.absent = some "7.7.7" ∨
      extractVersionField FileState.absent = some "7.7.7" ∨
      readVersionFile (.content "7.7.7") = some "7.7.7") := by
  constructor
  · exact (locator_none_characterization ⟨.absent, .absent, .absent⟩).1.mpr
      ⟨rfl, rfl, rfl⟩
  · exact (locator_none_characterization
      ⟨.absent, .absent, .content "7.7.7"⟩).2 "7.7.7" (by decide)

/-- C5: for every manifest file that is missing, unreadable, not a JSON
object, or lacks a top-level string `version` field, `update_json_version`
leaves the file state exactly unchanged. -/
theorem update_json_noop (file : FileState) (nv : String)
    (h : hasStringVersion file = false) :
    update_json_version file nv = file := by
  cases file with
  | absent => rfl
  | unreadable => rfl
  | unparseable => rfl
  | json j =>
    cases j with
    | null => rfl
    | bool b => rfl
    | num n => rfl
    | str s => rfl
    | arr xs => rfl
    | obj fields =>
      unfold update_json_version
      unfold hasStringVersion at h
      cases hl : lookupKey fields "version" with
      | none => simp [hl]
      | some v =>
        cases v <;> simp_all [hl]

/-- Concrete instance of `update_json_noop`: the test suite's
`{"name": "no-version"}` package.json is untouched by an update to 0.2.2. -/
theorem update_json_noop_witness :
    hasStringVersion (.json (.obj [("name", Json.str "no-version")])) = false ∧
    update_json_version (.json (.obj [("name", Json.str "no-version")]))
      "0.2.2" = .json (.obj [("name", Json.str "no-version")]) :=
  ⟨rfl, update_json_noop _ _ rfl⟩

/-- C3: on a manifest holding a JSON object with a top-level string `version`
field, `update_json_version` rewrites the file with only that field's value
replaced: the key sequence (hence insertion order) is unchanged, every
non-`version` entry is preserved at its position, and `version` now holds the
new string. -/
theorem update_json_preserves_shape (fields : List (String × Json))
    (nv old : String) (h : lookupKey fields "version" = some (.str old)) :
    ∃ fields2,
      update_json_version (.json (.obj fields)) nv = .json (.obj fields2) ∧
      fields2.map Prod.fst = fields.map Prod.fst ∧
      lookupKey fields2 "version" = some (.str nv) ∧
      (∀ k, k ≠ "version" → lookupKey fields2 k = lookupKey fields k) ∧
      (∀ (i : Nat) (kv : String × Json), fields[i]? = some kv →
        kv.1 ≠ "version" → fields2[i]? = some kv) := by
  refine ⟨setVersion fields nv, ?_, setVersion_keys fields nv,
    setVersion_lookup_version fields nv (by rw [h]; rfl),
    fun k hk => setVersion_lookup_ne fields nv k hk,
    fun i kv hi hk => setVersion_getElem_ne fields nv i kv hi hk⟩
  simp [update_json_version, h]

/-- Concrete instance of `update_json_preserves_shape` on a three-field
manifest: the rewritten object still maps `name` to its old value while
`version` holds the new string. -/
theorem update_json_preserves_shape_witness :
    ∃ fields2,
      update_json_version (.json (.obj [("name", Json.str "pkg"),
        ("version", Json.str "1.0.0"), ("private", Json.bool true)])) "1.0.1" =
          .json (.obj fields2) ∧
      lookupKey fields2 "version" = some (.str "1.0.1") ∧
      lookupKey fields2 "name" = some (.str "pkg") := by
  obtain ⟨fields2, h1, -, h3, h4, -⟩ := update_json_preserves_shape
    [("name", Json.str "pkg"), ("version", Json.str "1.0.0"),
      ("private", Json.bool true)] "1.0.1" "1.0.0" rfl
  exact ⟨fields2, h1, h3, (h4 "name" (by decide)).trans rfl⟩

/-- C4: whenever `main` completes a bump successfully, all three updaters have
run with the same rendered new version — both manifests and the VERSION file
hold states produced by updating the original ones with that string, every
present manifest carrying a string `version` field now carries the new value,
and an existing VERSION file's entire content is the new version string. -/
theorem all_updaters_run (fs : Fs) (flag old nv : String) (fs2 : Fs)
    (h : mainRun fs flag = (.ok old nv, fs2)) :
    fs2.composer = update_json_version fs.composer nv ∧
    fs2.package = update_json_version fs.package nv ∧
    fs2.versionFile = update_version_file fs.versionFile nv ∧
    (fs.versionFile ≠ .absent → fs2.versionFile = .content nv) ∧
    (∀ (fields : List (String × Json)) (s0 : String),
      fs.composer = .json (.obj fields) →
      lookupKey fields "version" = some (.str s0) →
      ∃ f2, fs2.composer = .json (.obj f2) ∧
        lookupKey f2 "version" = some (.str nv)) ∧
    (∀ (fields : List (String × Json)) (s0 : String),
      fs.package = .json (.obj fields) →
      lookupKey fields "version" = some (.str s0) →
      ∃ f2, fs2.package = .json (.obj f2) ∧
        lookupKey f2 "version" = some (.str nv)) := by
  unfold mainRun at h
  split at h
  · exact absurd h (by simp)
  split at h
  · exact absurd h (by simp)
  split at h
  · exact absurd h (by simp)
  rename_i cur hg ver hp ver2 hb
  simp only [Prod.mk.injEq, MainResult.ok.injEq] at h
  obtain ⟨⟨-, hnv⟩, hfs2⟩ := h
  subst hnv
  subst hfs2
  refine ⟨rfl, rfl, rfl, ?_, ?_, ?_⟩
  · intro hne
    cases hvf : fs.versionFile with
    | absent => exact absurd hvf hne
    | unreadable => simp [update_version_file, hvf]
    | content s => simp [update_version_file, hvf]
  · intro fields s0 hcomp hlk
    refine ⟨setVersion fields (versionToString ver2), ?_,
      setVersion_lookup_version fields _ (by rw [hlk]; rfl)⟩
    simp [update_json_version, hcomp, hlk]
  · intro fields s0 hpkg hlk
    refine ⟨setVersion fields (versionToString ver2), ?_,
      setVersion_lookup_version fields _ (by rw [hlk]; rfl)⟩
    simp [update_json_version, hpkg, hlk]

/-- Concrete instance of `all_updaters_run`: detection used composer.json, yet
the VERSION file also ends up holding the new version and composer.json's
`version` field holds it too. -/
theorem all_updaters_run_witness :
    (mainRun ⟨.json (.obj [("version", Json.str "1.2.3")]),
      .json (.obj [("name", Json.str "x")]), .content "2.0.0"⟩
        "patch").2.versionFile = .content "1.2.4" ∧
    ∃ f2, (mainRun ⟨.json (.obj [("version", Json.str "1.2.3")]),
      .json (.obj [("name", Json.str "x")]), .content "2.0.0"⟩
        "patch").2.composer = .json (.obj f2) ∧
      lookupKey f2 "version" = some (.str "1.2.4") := by
  have h := all_updaters_run
    ⟨.json (.obj [("version", Json.str "1.2.3")]),
      .json (.obj [("name", Json.str "x")]), .content "2.0.0"⟩
    "patch" "1.2.3" "1.2.4"
    (mainRun ⟨.json (.obj [("version", Json.str "1.2.3")]),
      .json (.obj [("name", Json.str "x")]), .content "2.0.0"⟩ "patch").2
    rfl
  exact ⟨h.2.2.2.1 (by simp),
    h.2.2.2.2.1 [("version", Json.str "1.2.3")] "1.2.3" rfl rfl⟩

theorem stderrOf_invalidBumpType_ne_empty (b : String) :
    stderrOf (.invalidBumpType b) ≠ "" := by
  simp only [stderrOf]
  intro hemp
  have hd := congrArg String.data hemp
  rw [String.data_append] at hd
  exact absurd (List.append_eq_nil.mp hd).1 (by decide)

/-- C8: when the `--bump` flag holds anything other than the case-sensitive
literals `major`, `minor`, `patch`, the run never succeeds: the filesystem is
left untouched, the exit status is non-zero, and a diagnostic is written to
standard error. -/
theorem invalid_bump_flag_rejected (fs : Fs) (flag : String)
    (h1 : flag ≠ "major") (h2 : flag ≠ "minor") (h3 : flag ≠ "patch") :
    (mainRun fs flag).2 = fs ∧
    (∀ old nv, (mainRun fs flag).1 ≠ .ok old nv) ∧
    exitCodeOf (mainRun fs flag).1 ≠ 0 ∧
    stderrOf (mainRun fs flag).1 ≠ "" := by
  have hb : ∀ ver, bumpVersion ver flag = none := by
    intro ver
    unfold bumpVersion applyBump
    split <;> simp_all
  unfold mainRun
  split
  · exact ⟨rfl, fun old nv => by simp, (by decide : (1 : Nat) ≠ 0),
      (by decide : stderrOf MainResult.noVersionFound ≠ "")⟩
  split
  · exact ⟨rfl, fun old nv => by simp, (by decide : (101 : Nat) ≠ 0),
      (by decide : stderrOf MainResult.invalidVersion ≠ "")⟩
  rename_i cur hg ver hp
  rw [hb ver]
  exact ⟨rfl, fun old nv => by simp, (by decide : (1 : Nat) ≠ 0),
    stderrOf_invalidBumpType_ne_empty flag⟩

/-- Concrete instance of `invalid_bump_flag_rejected`: the capitalised flag
value `Major` is rejected even though a valid version is present, with the
filesystem untouched. -/
theorem invalid_bump_flag_rejected_witness :
    (mainRun ⟨.json (.obj [("version", Json.str "1.2.3")]), .absent, .absent⟩
      "Major").2 =
      ⟨.json (.obj [("version", Json.str "1.2.3")]), .absent, .absent⟩ ∧
    exitCodeOf (mainRun ⟨.json (.obj [("version", Json.str "1.2.3")]),
      .absent, .absent⟩ "Major").1 ≠ 0 ∧
    stderrOf (mainRun ⟨.json (.obj [("version", Json.str "1.2.3")]),
      .absent, .absent⟩ "Major").1 ≠ "" := by
  have h := invalid_bump_flag_rejected
    ⟨.json (.obj [("version", Json.str "1.2.3")]), .absent, .absent⟩ "Major"
    (by decide) (by decide) (by decide)
  exact ⟨h.1, h.2.2.1, h.2.2.2⟩

/-- C9: when none of composer.json, package.json and VERSION exist, the run
terminates in the no-version-found state: exit status non-zero, a standard-
error message containing "No version found", and the filesystem unchanged. -/
theorem missing_all_sources (fs : Fs) (flag : String)
    (hc : fs.composer = .absent) (hp : fs.package = .absent)
    (hv : fs.versionFile = .absent) :
    mainRun fs flag = (.noVersionFound, fs) ∧
    exitCodeOf (mainRun fs flag).1 ≠ 0 ∧
    ∃ before after,
      stderrOf (mainRun fs flag).1 = before ++ "No version found" ++ after := by
  have hg : get_current_version fs = none := by
    simp [get_current_version, extractVersionField, hc, hp, hv]
  have hm : mainRun fs flag = (.noVersionFound, fs) := by
    simp [mainRun, hg]
  refine ⟨hm, ?_, ?_⟩
  · rw [hm]
    exact (by decide : (1 : Nat) ≠ 0)
  · rw [hm]
    exact ⟨"", " in composer.json, package.json, or VERSION file.",
      (by decide : stderrOf MainResult.noVersionFound = "" ++ "No version found"
        ++ " in composer.json, package.json, or VERSION file.")⟩

/-- Concrete instance of `missing_all_sources` on the empty working
directory. -/
theorem missing_all_sources_witness :
    mainRun ⟨.absent, .absent, .absent⟩ "patch" =
      (.noVersionFound, ⟨.absent, .absent, .absent⟩) ∧
    exitCodeOf (mainRun ⟨.absent, .absent, .absent⟩ "patch").1 ≠ 0 ∧
    ∃ before after, stderrOf (mainRun ⟨.absent, .absent, .absent⟩ "patch").1 =
      before ++ "No version found" ++ after :=
  missing_all_sources ⟨.absent, .absent, .absent⟩ "patch" rfl rfl rfl

/-- C10: the locator applies no semantic-version validation: whichever of the
three sources is the highest-priority one to extract successfully — the
composer manifest, the package manifest, or the trimmed VERSION text — its
string is returned as-is, and when that string is not a valid semantic version
the run dies at the parse step (the filesystem untouched) instead of falling
back to a lower-priority source. -/
theorem locator_no_validation (fs : Fs) (flag s : String)
    (htop : extractVersionField fs.composer = some s ∨
      (extractVersionField fs.composer = none ∧
        extractVersionField fs.package = some s) ∨
      (extractVersionField fs.composer = none ∧
        extractVersionField fs.package = none ∧
        readVersionFile fs.versionFile = some s))
    (hinv : semverParse s = none) :
    get_current_version fs = some s ∧
    mainRun fs flag = (.invalidVersion, fs) := by
  have hg : get_current_version fs = some s := by
    rcases htop with hc | ⟨hc, hp⟩ | ⟨hc, hp, hv⟩
    · simp [get_current_version, hc]
    · simp [get_current_version, hc, hp]
    · cases hvf : fs.versionFile with
      | absent => rw [hvf] at hv; simp [readVersionFile] at hv
      | unreadable => rw [hvf] at hv; simp [readVersionFile] at hv
      | content raw =>
        rw [hvf] at hv
        simp [readVersionFile] at hv
        simp [get_current_version, hc, hp, hvf, hv]
  exact ⟨hg, by simp [mainRun, hg, hinv]⟩

/-- Concrete instances of `locator_no_validation`: composer.json's "banana"
shadows a valid package.json 1.2.3, and a VERSION file holding arbitrary
text as the only source is likewise returned unvalidated; both runs die at
the parse step with the filesystem untouched. -/
theorem locator_no_validation_witness :
    (get_current_version ⟨.json (.obj [("version", Json.str "banana")]),
      .json (.obj [("version", Json.str "1.2.3")]), .absent⟩ = some "banana" ∧
     mainRun ⟨.json (.obj [("version", Json.str "banana")]),
       .json (.obj [("version", Json.str "1.2.3")]), .absent⟩ "patch" =
       (.invalidVersion, ⟨.json (.obj [("version", Json.str "banana")]),
         .json (.obj [("version", Json.str "1.2.3")]), .absent⟩)) ∧
    (get_current_version ⟨.absent, .absent, .content "not-a-version"⟩ =
       some "not-a-version" ∧
     mainRun ⟨.absent, .absent, .content "not-a-version"⟩ "patch" =
       (.invalidVersion, ⟨.absent, .absent, .content "not-a-version"⟩)) :=
  ⟨locator_no_validation _ "patch" "banana" (Or.inl rfl) (by decide),
    locator_no_validation _ "patch" "not-a-version"
      (Or.inr (Or.inr ⟨rfl, rfl, by decide⟩)) (by decide)⟩

end Semver
